import Mathlib

/-!
# Verification of the whatsapp-cli persistence and media layer

Shallow embedding of the store/commands/client code of `vicentereig/whatsapp-cli`
(files `internal/store/store.go`, `internal/commands/commands.go`,
`internal/client/client.go`) and proofs about it.

The SQLite database is modelled as in-memory lists of rows; each SQL statement
of the source is translated into a pure Lean function over that state.
Machine integers (`int64`, `uint64`) are modelled as `Int`/`Nat` with explicit
wrap-around where the source can overflow.  Go `[]byte` values bind to SQLite
as NULL when nil and as a blob otherwise; every check the code performs on
blobs (`length(x) > 0`, `len(b) == 0`) identifies NULL with the empty blob, so
blobs are modelled as `List Nat` with `[]` standing for both.
-/

/-- A row of the `messages` table (schema in `store.go:101-121`).
`local_path` and `downloaded_at` are nullable and never written by
`StoreMessage`, hence `Option`. `file_length` is an SQLite INTEGER (int64). -/
structure MessageRow where
  id : String
  chatJID : String
  sender : String
  content : String
  timestamp : Int
  isFromMe : Bool
  mediaType : String
  filename : String
  url : String
  directPath : String
  mimeType : String
  mediaKey : List Nat
  fileSHA256 : List Nat
  fileEncSHA256 : List Nat
  fileLength : Int
  localPath : Option String
  downloadedAt : Option Int
deriving DecidableEq, Repr

/-- A row of the `chats` table (schema in `store.go:95-99`).
The `name` column is declared without NOT NULL, but every INSERT binds a Go
string (never nil), so the column is modelled as `String`; the
`chats.name IS NULL` disjuncts of the upsert CASE are unreachable. -/
structure ChatRow where
  jid : String
  name : String
  lastMessageTime : Int
deriving DecidableEq, Repr

/-- The database state: the two tables, as ordered lists of rows. -/
structure DB where
  chats : List ChatRow
  messages : List MessageRow
deriving DecidableEq, Repr

/-- Arguments of `MessageStore.StoreMessage` (store.go:203-204), in source
order.  `fileLength` is the Go `uint64` argument, represented by its value. -/
structure StoreMessageArgs where
  id : String
  chatJID : String
  sender : String
  content : String
  timestamp : Int
  isFromMe : Bool
  mediaType : String
  filename : String
  url : String
  directPath : String
  mimeType : String
  mediaKey : List Nat
  fileSHA256 : List Nat
  fileEncSHA256 : List Nat
  fileLength : Nat
deriving DecidableEq, Repr

/-- Go conversion `int64(x)` of a `uint64` value: wraps values `≥ 2^63`. -/
def toInt64 (n : Nat) : Int :=
  if n % 2 ^ 64 < 2 ^ 63 then ((n % 2 ^ 64 : Nat) : Int)
  else ((n % 2 ^ 64 : Nat) : Int) - 2 ^ 64

/-- store.go:205-208: `intFileLength := int64(0); if fileLength > 0 {
intFileLength = int64(fileLength) }`. -/
def intFileLength (fileLength : Nat) : Int :=
  if 0 < fileLength % 2 ^ 64 then toInt64 fileLength else 0

/-- The row produced by the INSERT branch of `StoreMessage` (store.go:211-213):
`local_path` and `downloaded_at` are not in the column list, so they are NULL. -/
def insertRow (a : StoreMessageArgs) : MessageRow :=
  { id := a.id, chatJID := a.chatJID, sender := a.sender, content := a.content
    timestamp := a.timestamp, isFromMe := a.isFromMe, mediaType := a.mediaType
    filename := a.filename, url := a.url, directPath := a.directPath
    mimeType := a.mimeType, mediaKey := a.mediaKey, fileSHA256 := a.fileSHA256
    fileEncSHA256 := a.fileEncSHA256, fileLength := intFileLength a.fileLength
    localPath := none, downloadedAt := none }

/-- The `ON CONFLICT(id, chat_jid) DO UPDATE SET` clause of `StoreMessage`
(store.go:214-227), applied to the existing row `old` with the incoming
(`excluded`) values of `a`.  `COALESCE(NULLIF(excluded.f, ''), messages.f)`
keeps the old value when the incoming string is empty; the blob CASEs keep the
old value when the incoming blob is NULL or empty; `file_length` is kept
unless the incoming bound value is positive.  All other columns are replaced
unconditionally. -/
def mergeRow (old : MessageRow) (a : StoreMessageArgs) : MessageRow :=
  { old with
    sender := a.sender
    content := a.content
    timestamp := a.timestamp
    isFromMe := a.isFromMe
    mediaType := a.mediaType
    filename := if a.filename ≠ "" then a.filename else old.filename
    url := a.url
    directPath := if a.directPath ≠ "" then a.directPath else old.directPath
    mimeType := if a.mimeType ≠ "" then a.mimeType else old.mimeType
    mediaKey := if 0 < a.mediaKey.length then a.mediaKey else old.mediaKey
    fileSHA256 := if 0 < a.fileSHA256.length then a.fileSHA256 else old.fileSHA256
    fileEncSHA256 := if 0 < a.fileEncSHA256.length then a.fileEncSHA256 else old.fileEncSHA256
    fileLength := if 0 < intFileLength a.fileLength then intFileLength a.fileLength
                  else old.fileLength }

/-- `INSERT ... ON CONFLICT(id, chat_jid) DO UPDATE` over the messages table:
the first row with the conflicting primary key is updated in place; if none
exists the new row is inserted. -/
def storeMessageList (a : StoreMessageArgs) : List MessageRow → List MessageRow
  | [] => [insertRow a]
  | m :: rest =>
      if m.id = a.id ∧ m.chatJID = a.chatJID then mergeRow m a :: rest
      else m :: storeMessageList a rest

/-- `MessageStore.StoreMessage` (store.go:203-231).  The Go function returns an
error only on storage-layer faults; the upsert itself is total (it never fails
because the (id, chat_jid) row already exists), so it is modelled as a total
state transformer. -/
def StoreMessage (db : DB) (a : StoreMessageArgs) : DB :=
  { db with messages := storeMessageList a db.messages }

/-- The `name = CASE ... END` of `StoreChat`'s ON CONFLICT clause
(store.go:192-196).  `excluded.name IS NOT NULL` is always true (the Go caller
binds a string), and the `chats.name IS NULL` disjuncts are unreachable since
every insert stores a string, so they are dropped together with the Option. -/
def mergeChatName (jid oldName newName : String) : String :=
  if newName ≠ "" ∧ (newName ≠ jid ∨ oldName = "" ∨ oldName = jid) then newName
  else if oldName = "" then newName
  else oldName

/-- The chats upsert: update the first row with the conflicting `jid` (name via
`mergeChatName`, `last_message_time` always replaced), else insert. -/
def storeChatList (jid name : String) (t : Int) : List ChatRow → List ChatRow
  | [] => [{ jid := jid, name := name, lastMessageTime := t }]
  | c :: rest =>
      if c.jid = jid then
        { c with name := mergeChatName jid c.name name, lastMessageTime := t } :: rest
      else c :: storeChatList jid name t rest

/-- `MessageStore.StoreChat` (store.go:188-201). -/
def StoreChat (db : DB) (jid name : String) (t : Int) : DB :=
  { db with chats := storeChatList jid name t db.chats }

/-- Lookup of the chat row with a given jid (`jid` is the primary key). -/
def findChat (db : DB) (jid : String) : Option ChatRow :=
  db.chats.find? (fun c => c.jid = jid)

/-- Lookup of the message row with a given primary key (id, chat_jid). -/
def findMessage (db : DB) (id chatJID : String) : Option MessageRow :=
  db.messages.find? (fun m => m.id = id ∧ m.chatJID = chatJID)

/-- Primary-key uniqueness of the messages table, which SQLite maintains and
the list model carries as an invariant. -/
def DB.wfMessages (db : DB) : Prop :=
  (db.messages.map (fun m => (m.id, m.chatJID))).Nodup

instance (db : DB) : Decidable db.wfMessages := by
  unfold DB.wfMessages; infer_instance

def c10oldRow : MessageRow :=
  ⟨"m1", "c1", "s0", "old", 9, true, "image", "f.jpg", "u0", "/p", "image/jpeg",
    [1], [2], [3], 4, none, none⟩

def c10args : StoreMessageArgs :=
  ⟨"m1", "c1", "s1", "", 2, false, "", "", "", "", "", [], [], [], 0⟩

/-- The database used to refute claim C3: one chat and one fully populated
media message. -/
def c3db0 : DB :=
  ⟨[{ jid := "c1", name := "Alice", lastMessageTime := 0 }], []⟩

/-- First write for the C3 scenario: a live event carrying a complete media
descriptor. -/
def c3write1 : StoreMessageArgs :=
  ⟨"m1", "c1", "s", "pic", 5, false, "image", "f.jpg", "u", "/p", "image/jpeg",
    [1], [2], [3], 9⟩

/-- Second write for the C3 scenario: a later partial observation of the same
message with every media field empty. -/
def c3write2 : StoreMessageArgs :=
  ⟨"m1", "c1", "s", "pic", 5, false, "", "", "", "", "", [], [], [], 0⟩

/-- The result row assembled by `GetMessageForDownload` (struct in
store.go:44-63): message columns plus the LEFT-JOINed chat name
(nullable, scanned into a pointer). -/
structure MessageDownloadInfo where
  ID : String
  ChatJID : String
  ChatName : Option String
  MediaType : String
  Filename : String
  DirectPath : String
  MimeType : String
  URL : String
  MediaKey : List Nat
  FileSHA256 : List Nat
  FileEncSHA256 : List Nat
  FileLength : Nat
  LocalPath : Option String
  DownloadedAt : Option Int
  Sender : String
  Content : String
  MessageTime : Int
  IsFromMe : Bool
deriving DecidableEq, Repr

/-- Conversion of a stored row to a `MessageDownloadInfo` (the SELECT and scan
of store.go:316-394): the chat name comes from `LEFT JOIN chats`, and
`FileLength` is `COALESCE(m.file_length, 0)` kept only when positive
(store.go:381-383). -/
def toInfo (db : DB) (m : MessageRow) : MessageDownloadInfo :=
  { ID := m.id, ChatJID := m.chatJID
    ChatName := (findChat db m.chatJID).map ChatRow.name
    MediaType := m.mediaType, Filename := m.filename, DirectPath := m.directPath
    MimeType := m.mimeType, URL := m.url
    MediaKey := m.mediaKey, FileSHA256 := m.fileSHA256, FileEncSHA256 := m.fileEncSHA256
    FileLength := if 0 < m.fileLength then m.fileLength.toNat else 0
    LocalPath := m.localPath, DownloadedAt := m.downloadedAt
    Sender := m.sender, Content := m.content, MessageTime := m.timestamp
    IsFromMe := m.isFromMe }

/-- The WHERE clause of `GetMessageForDownload` (store.go:338-343):
`m.id = ?`, plus `m.chat_jid = ?` when a chat JID is supplied. -/
def msgFilter (id : String) (chatJID : Option String) (m : MessageRow) : Bool :=
  m.id = id && (match chatJID with | none => true | some c => m.chatJID = c)

/-- The two failure conditions of `GetMessageForDownload`: `sql.ErrNoRows`
(store.go:400-402) and the ambiguity error (store.go:403-405). -/
inductive LookupError
  | noRows
  | ambiguous (id : String)
deriving DecidableEq, Repr

/-- `MessageStore.GetMessageForDownload` (store.go:315-408): collect all rows
matching the id (and optional chat JID); no row is `ErrNoRows`; more than one
row with no chat JID supplied is the ambiguity error; otherwise the first
matching row is returned. -/
def GetMessageForDownload (db : DB) (id : String) (chatJID : Option String) :
    Except LookupError MessageDownloadInfo :=
  match (db.messages.filter (msgFilter id chatJID)).map (toInfo db) with
  | [] => .error .noRows
  | first :: rest =>
      if 0 < rest.length ∧ chatJID = none then .error (.ambiguous id)
      else .ok first

/-- Concrete store for the C5 witness: two chats sharing message id "dup1". -/
def c5db : DB :=
  ⟨[⟨"c1", "A", 0⟩, ⟨"c2", "B", 0⟩],
   [⟨"dup1", "c1", "s1", "x", 1, false, "", "", "", "", "", [], [], [], 0, none, none⟩,
    ⟨"dup1", "c2", "s2", "y", 2, false, "", "", "", "", "", [], [], [], 0, none, none⟩]⟩

/-- SQLite `LOWER` and the default (case-insensitive) LIKE fold ASCII letters
only. -/
def asciiLower (c : Char) : Char :=
  if 'A' ≤ c ∧ c ≤ 'Z' then Char.ofNat (c.toNat + 32) else c

/-- SQLite LIKE pattern matching, as used by the store's queries (no ESCAPE
clause): `%` matches any sequence, `_` matches any single character, any other
pattern character matches case-insensitively (ASCII only, SQLite's default
LIKE behaviour; this also subsumes the `LOWER()` both queries apply to the two
sides). -/
def likePercent (f : List Char → Bool) : List Char → Bool
  | [] => f []
  | c :: s1 => f (c :: s1) || likePercent f s1

/-- Matching of a LIKE pattern against a string: `%` matches any sequence
(via `likePercent`: try every suffix), `_` any single character, other
characters case-insensitively. -/
def likeMatch : List Char → List Char → Bool
  | [], s => s.isEmpty
  | p0 :: ps, s =>
      if p0 = '%' then likePercent (likeMatch ps) s
      else
        match s with
        | [] => false
        | c :: s1 => (decide (p0 = '_') || (asciiLower p0 == asciiLower c)) && likeMatch ps s1

/-- String-level LIKE. -/
def likeCI (pat s : String) : Bool := likeMatch pat.data s.data

/-- A `Contact` as returned by SearchContacts (store.go:34-38). -/
structure Contact where
  PhoneNumber : String
  Name : String
  JID : String
deriving DecidableEq, Repr

/-- The phone number is the prefix of the JID before the first `@`, set only
when an `@` occurs (store.go:302-308). -/
def phoneFromJID (jid : String) : String :=
  if jid.data.contains '@' then String.mk (jid.data.takeWhile (fun c => c ≠ '@')) else ""

/-- The `ORDER BY name` relation: lexicographic codepoint order, as SQLite's
BINARY collation on UTF-8 text. -/
def chatNameLe (a b : ChatRow) : Prop := a.name ≤ b.name

instance : DecidableRel chatNameLe :=
  fun a b => inferInstanceAs (Decidable (a.name ≤ b.name))

instance : IsTotal ChatRow chatNameLe := ⟨fun a b => le_total a.name b.name⟩

instance : IsTrans ChatRow chatNameLe := ⟨fun _ _ _ h1 h2 => le_trans h1 h2⟩

/-- `MessageStore.SearchContacts` (store.go:281-313): WHERE (LOWER(name) LIKE
LOWER('%'||q||'%') OR LOWER(jid) LIKE LOWER('%'||q||'%')) AND jid NOT LIKE
'%@g.us', ORDER BY name, LIMIT 50; each row is mapped to a `Contact`. -/
def SearchContacts (db : DB) (query : String) : List Contact :=
  (((db.chats.filter (fun c =>
      (likeCI ("%" ++ query ++ "%") c.name || likeCI ("%" ++ query ++ "%") c.jid)
      && !(likeCI "%@g.us" c.jid))).insertionSort chatNameLe).take 50).map
    (fun c => { PhoneNumber := phoneFromJID c.jid, Name := c.name, JID := c.jid })

/-- Parameters of ListMessages (store.go:65-73); times are modelled as Int. -/
structure ListMessagesParams where
  after : Option Int
  before : Option Int
  sender : Option String
  chatJID : Option String
  query : Option String
  limit : Int
  page : Int
deriving DecidableEq, Repr

/-- A `Message` as returned by ListMessages (store.go:14-23). -/
structure Message where
  id : String
  chatJID : String
  chatName : String
  sender : String
  content : String
  timestamp : Int
  isFromMe : Bool
  mediaType : String
deriving DecidableEq, Repr

/-- The dynamically built WHERE clause of ListMessages (store.go:238-257):
timestamp strictly after/before, exact sender and chat, LIKE on content. -/
def messagesWhere (p : ListMessagesParams) (m : MessageRow) : Bool :=
  (match p.after with | none => true | some t => t < m.timestamp) &&
  (match p.before with | none => true | some t => m.timestamp < t) &&
  (match p.sender with | none => true | some s => m.sender = s) &&
  (match p.chatJID with | none => true | some c => m.chatJID = c) &&
  (match p.query with | none => true | some q => likeCI ("%" ++ q ++ "%") m.content)

/-- SQLite `LIMIT ?`: a negative limit means no limit. -/
def sqlLimit {α : Type _} (n : Int) (l : List α) : List α :=
  if n < 0 then l else l.take n.toNat

/-- SQLite `OFFSET ?`: a non-positive offset skips nothing. -/
def sqlOffset {α : Type _} (n : Int) (l : List α) : List α :=
  if n ≤ 0 then l else l.drop n.toNat

/-- The `ORDER BY m.timestamp DESC` relation. -/
def msgTimeDesc (a b : MessageRow) : Prop := b.timestamp ≤ a.timestamp

instance : DecidableRel msgTimeDesc :=
  fun a b => inferInstanceAs (Decidable (b.timestamp ≤ a.timestamp))

/-- `MessageStore.ListMessages` (store.go:233-279): WHERE filters, INNER JOIN
with chats for the display name (a message whose chat row is missing drops out
of the join), ORDER BY timestamp DESC, LIMIT/OFFSET with offset equal to
page times limit. -/
def ListMessages (db : DB) (p : ListMessagesParams) : List Message :=
  (sqlLimit p.limit (sqlOffset (p.page * p.limit)
      ((db.messages.filter (fun m => messagesWhere p m && (findChat db m.chatJID).isSome)
        ).insertionSort msgTimeDesc))).map (fun m =>
    { id := m.id, chatJID := m.chatJID
      chatName := ((findChat db m.chatJID).map ChatRow.name).getD ""
      sender := m.sender, content := m.content, timestamp := m.timestamp
      isFromMe := m.isFromMe, mediaType := m.mediaType })

/-- Parameters of ListChats (store.go:75-79). -/
structure ListChatsParams where
  query : Option String
  limit : Int
  page : Int
deriving DecidableEq, Repr

/-- A `Chat` as returned by ListChats (store.go:25-32); only jid, name and
last_message_time are selected, the remaining pointers stay nil. -/
structure Chat where
  jid : String
  name : String
  lastMessageTime : Int
  lastMessage : Option String
  lastSender : Option String
  lastIsFromMe : Option Bool
deriving DecidableEq, Repr

/-- WHERE clause of ListChats (store.go:424-427). -/
def chatsWhere (p : ListChatsParams) (c : ChatRow) : Bool :=
  match p.query with
  | none => true
  | some q => likeCI ("%" ++ q ++ "%") c.name || likeCI ("%" ++ q ++ "%") c.jid

/-- The `ORDER BY last_message_time DESC` relation. -/
def chatTimeDesc (a b : ChatRow) : Prop := b.lastMessageTime ≤ a.lastMessageTime

instance : DecidableRel chatTimeDesc :=
  fun a b => inferInstanceAs (Decidable (b.lastMessageTime ≤ a.lastMessageTime))

/-- `MessageStore.ListChats` (store.go:420-448). -/
def ListChats (db : DB) (p : ListChatsParams) : List Chat :=
  (sqlLimit p.limit (sqlOffset (p.page * p.limit)
      ((db.chats.filter (chatsWhere p)).insertionSort chatTimeDesc))).map (fun c =>
    { jid := c.jid, name := c.name, lastMessageTime := c.lastMessageTime
      lastMessage := none, lastSender := none, lastIsFromMe := none })

/-- A JSON value, for the process-boundary envelope. -/
inductive Json
  | null
  | bool (b : Bool)
  | num (n : Int)
  | str (s : String)
  | arr (elems : List Json)
  | obj (fields : List (String × Json))
deriving Repr

/-- Modelled from the spec: the `output` package is not under `src/` (only its
tests are).  Per the spec, a successful operation yields the envelope
`success:true` with the data payload and a null error, and list payloads with
zero matches are rendered as an empty sequence, not null. -/
def outputSuccess (data : Json) : Json :=
  .obj [("success", .bool true), ("data", data), ("error", .null)]

/-- Modelled from the spec: failures yield `success:false`, `data:null`, and a
non-empty error string. -/
def outputError (msg : String) : Json :=
  .obj [("success", .bool false), ("data", .null), ("error", .str msg)]

/-- JSON encoding of a `Message` per its struct tags (store.go:14-23); a slice
of messages marshals to the array of its encoded elements. -/
def encodeMessage (m : Message) : Json :=
  .obj [("id", .str m.id), ("chat_jid", .str m.chatJID), ("chat_name", .str m.chatName),
    ("sender", .str m.sender), ("content", .str m.content), ("timestamp", .num m.timestamp),
    ("is_from_me", .bool m.isFromMe), ("media_type", .str m.mediaType)]

/-- JSON encoding of a `Contact` per its struct tags (store.go:34-38). -/
def encodeContact (c : Contact) : Json :=
  .obj [("phone_number", .str c.PhoneNumber), ("name", .str c.Name), ("jid", .str c.JID)]

/-- JSON encoding of a `Chat` per its struct tags (store.go:25-32). -/
def encodeChat (c : Chat) : Json :=
  .obj [("jid", .str c.jid), ("name", .str c.name),
    ("last_message_time", .num c.lastMessageTime)]

/-- `App.ListMessages` (commands.go:96-108): builds `ListMessagesParams` with
only ChatJID, Query, Limit and Page set, queries the store and renders the
success envelope.  Store errors arise only from storage faults, which are
outside this model. -/
def appListMessages (db : DB) (chatJID query : Option String) (limit page : Int) : Json :=
  outputSuccess (.arr ((ListMessages db
    { after := none, before := none, sender := none, chatJID := chatJID,
      query := query, limit := limit, page := page }).map encodeMessage))

/-- `App.SearchContacts` (commands.go:110-117). -/
def appSearchContacts (db : DB) (query : String) : Json :=
  outputSuccess (.arr ((SearchContacts db query).map encodeContact))

/-- `App.ListChats` (commands.go:119-130). -/
def appListChats (db : DB) (query : Option String) (limit page : Int) : Json :=
  outputSuccess (.arr ((ListChats db
    { query := query, limit := limit, page := page }).map encodeChat))

/-- Store with one non-group chat, used to refute the universally quantified
substring reading of claim C8. -/
def c8db : DB := ⟨[⟨"a@s.whatsapp.net", "John", 0⟩], []⟩

/-- Store for the C8 witness: the spec's scenario of a contact "John" and a
group "John's Group". -/
def c8wdb : DB :=
  ⟨[⟨"a@s.whatsapp.net", "John", 0⟩, ⟨"b@g.us", "John Group", 0⟩], []⟩

/-- Go `strings.TrimSpace`, modelled structurally over the character list
(whitespace per `Char.isWhitespace`). -/
def trimSpace (s : String) : String :=
  String.mk (((s.data.dropWhile Char.isWhitespace).reverse.dropWhile
    Char.isWhitespace).reverse)

/-- Go `strings.ToLower`, modelled structurally over the character list. -/
def lowerStr (s : String) : String := String.mk (s.data.map Char.toLower)

/-- The effectful context of the media download path, abstracted: the result
of `resolveOutputPath` (filesystem-dependent via os.Stat/filepath.Abs), the
success of `os.MkdirAll`, the injected downloader `App.mediaDownloader`, the
`os.Stat` existence check, and `time.Now().UTC()`. -/
structure Env where
  resolvePath : MessageDownloadInfo → String → String
  mkdirOk : String → Bool
  download : MessageDownloadInfo → String → Except String Nat
  fileExists : String → Bool
  now : Int

/-- `MessageStore.MarkMediaDownloaded` (store.go:410-418): UPDATE local_path
and downloaded_at on the (id, chat_jid) row. -/
def MarkMediaDownloaded (db : DB) (id chatJID localPath : String) (downloadedAt : Int) : DB :=
  { db with messages := db.messages.map (fun m =>
      if m.id = id ∧ m.chatJID = chatJID then
        { m with localPath := some localPath, downloadedAt := some downloadedAt }
      else m) }

/-- `App.downloadMediaAndPersist` (commands.go:366-391): resolve the final
path, create the destination directory, run the downloader, and only on
success call MarkMediaDownloaded.  The pair carries the store state together
with the error or the (path, bytes, time) result. -/
def downloadMediaAndPersist (env : Env) (db : DB) (info : MessageDownloadInfo)
    (requestedPath : String) : DB × Except String (String × Nat × Int) :=
  if ¬ env.mkdirOk (env.resolvePath info requestedPath) then
    (db, .error "failed to create destination directory")
  else
    match env.download info (env.resolvePath info requestedPath) with
    | .error e => (db, .error e)
    | .ok bytes =>
        (MarkMediaDownloaded db info.ID info.ChatJID (env.resolvePath info requestedPath) env.now,
         .ok (env.resolvePath info requestedPath, bytes, env.now))

/-- The success payload of DownloadMedia (commands.go:197-208); the RFC3339
timestamp is modelled by the numeric time. -/
def downloadResponse (info : MessageDownloadInfo) (messageID targetPath : String)
    (bytes : Nat) (t : Int) : Json :=
  Json.obj ([("message_id", .str messageID), ("chat_jid", .str info.ChatJID),
    ("path", .str targetPath), ("bytes", .num bytes), ("media_type", .str info.MediaType),
    ("mime_type", .str info.MimeType), ("downloaded_at", .num t)] ++
    (match info.ChatName with
     | some n => if n ≠ "" then [("chat_name", .str n)] else []
     | none => []))

/-- `App.DownloadMedia` (commands.go:174-210): trim and require the message
id; look the message up (sql.ErrNoRows becomes the "not found" message, other
lookup errors pass through); reject messages lacking media type, direct path
or media key with the distinct "no downloadable media" error before any
download is attempted; otherwise download-and-persist and render the
response. -/
def DownloadMedia (env : Env) (db : DB) (messageID : String) (chatJID : Option String)
    (outputPath : String) : DB × Json :=
  if trimSpace messageID = "" then (db, outputError "message ID is required")
  else
    match GetMessageForDownload db (trimSpace messageID) chatJID with
    | .error .noRows => (db, outputError ("message " ++ trimSpace messageID ++ " not found"))
    | .error (.ambiguous i) =>
        (db, outputError ("multiple messages found with ID " ++ i ++ "; specify chat JID"))
    | .ok info =>
        if trimSpace info.MediaType = "" ∨ trimSpace info.DirectPath = "" ∨ info.MediaKey.length = 0 then
          (db, outputError ("message " ++ trimSpace messageID ++ " has no downloadable media"))
        else
          match downloadMediaAndPersist env db info outputPath with
          | (db2, .error e) => (db2, outputError e)
          | (db2, .ok (path, bytes, t)) =>
              (db2, outputSuccess (downloadResponse info (trimSpace messageID) path bytes t))

/-- A background download job (commands.go:416-419). -/
structure MediaJob where
  messageID : String
  chatJID : String
deriving DecidableEq, Repr

/-- `App.processMediaJob` (commands.go:393-414): the background worker path.
Looks the message up (a missing row is silently skipped); skips when the
direct path is empty or the media key is empty — the media type is NOT part
of this gate — skips when the recorded local path still exists; otherwise
downloads and persists. -/
def processMediaJob (env : Env) (db : DB) (job : MediaJob) : DB × Except String Unit :=
  match GetMessageForDownload db job.messageID (some job.chatJID) with
  | .error .noRows => (db, .ok ())
  | .error (.ambiguous i) =>
      (db, .error ("multiple messages found with ID " ++ i ++ "; specify chat JID"))
  | .ok info =>
      if trimSpace info.DirectPath = "" ∨ info.MediaKey.length = 0 then (db, .ok ())
      else if (match info.LocalPath with
               | some p => env.fileExists p
               | none => false) then (db, .ok ())
      else
        match downloadMediaAndPersist env db info "" with
        | (db2, .error e) => (db2, .error e)
        | (db2, .ok _) => (db2, .ok ())

/-- A stored message with direct path and media key but an empty media type,
used to probe the worker gate. -/
def c6row : MessageRow :=
  ⟨"m1", "c1", "s", "vid", 3, false, "", "", "", "/p", "", [1], [], [], 0, none, none⟩

/-- A stored message with no media fields at all. -/
def c6rowBare : MessageRow :=
  ⟨"m2", "c1", "s", "x", 3, false, "", "", "", "", "", [], [], [], 0, none, none⟩

def c6db : DB := ⟨[⟨"c1", "A", 0⟩], [c6row, c6rowBare]⟩

/-- An environment whose downloader succeeds with 7 bytes. -/
def c6envOk : Env :=
  ⟨fun _ _ => "/t", fun _ => true, fun _ _ => .ok 7, fun _ => false, 11⟩

/-- The same environment with a failing downloader. -/
def c6envFail : Env :=
  ⟨fun _ _ => "/t", fun _ => true, fun _ _ => .error "boom", fun _ => false, 11⟩

instance {ε α : Type _} [DecidableEq ε] [DecidableEq α] : DecidableEq (Except ε α) :=
  fun x y =>
    match x, y with
    | .ok a, .ok b =>
        if h : a = b then isTrue (by rw [h])
        else isFalse (fun he => h (Except.ok.inj he))
    | .error a, .error b =>
        if h : a = b then isTrue (by rw [h])
        else isFalse (fun he => h (Except.error.inj he))
    | .ok _, .error _ => isFalse (fun he => Except.noConfusion he)
    | .error _, .ok _ => isFalse (fun he => Except.noConfusion he)

/-- `types.MediaDownloadRequest` (internal/types/media.go). -/
structure MediaDownloadRequest where
  URL : String
  DirectPath : String
  MediaKey : List Nat
  FileSHA256 : List Nat
  FileEncSHA256 : List Nat
  FileLength : Nat
  MediaType : String
  MimeType : String
deriving DecidableEq, Repr

/-- `mediaTypeFromString` (client.go:332-349): lower-cases the trimmed type
and maps it to a whatsmeow media type, failing on anything else (including
the empty string). -/
def mediaTypeFromString (mediaType : String) : Except String String :=
  match lowerStr (trimSpace mediaType) with
  | "image" => .ok "MediaImage"
  | "video" => .ok "MediaVideo"
  | "audio" => .ok "MediaAudio"
  | "document" => .ok "MediaDocument"
  | "sticker" => .ok "MediaImage"
  | _ => .error ("unsupported media type: " ++ mediaType)

/-- A flat filesystem: association of paths to file contents. -/
structure FS where
  files : List (String × List Nat)
deriving DecidableEq, Repr

def FS.lookup (fs : FS) (p : String) : Option (List Nat) :=
  (fs.files.find? (fun e => e.fst = p)).map Prod.snd

def FS.setFile (fs : FS) (p : String) (contents : List Nat) : FS :=
  ⟨(p, contents) :: fs.files.filter (fun e => ¬ e.fst = p)⟩

def FS.removeFile (fs : FS) (p : String) : FS :=
  ⟨fs.files.filter (fun e => ¬ e.fst = p)⟩

/-- Outcome of the protocol download into the temp file, abstracting
`DownloadMediaWithPathToFile` together with the Sync and Close steps: on
failure the bytes already written into the temp file are recorded. -/
inductive NetResult
  | ok (bytes : List Nat)
  | fail (written : List Nat) (msg : String)
deriving DecidableEq, Repr

/-- `WAClient.DownloadMediaToFile` (client.go:280-330): validate the direct
path and the media type; create a fresh temp file ".wa-download-*" in the
destination directory (`tmpName` is the fresh name chosen by os.CreateTemp,
`tmpCreateOk` models CreateTemp failure); download into the temp file
(partial bytes on failure); the deferred cleanup removes the temp file unless
the rename happened; on success the temp file is renamed onto the target and
its size is returned by os.Stat. -/
def DownloadMediaToFile (fs : FS) (req : MediaDownloadRequest) (targetPath : String)
    (tmpName : String) (tmpCreateOk : Bool) (net : NetResult) : FS × Except String Int :=
  if trimSpace req.DirectPath = "" then (fs, .error "media direct path is empty")
  else
    match mediaTypeFromString req.MediaType with
    | .error e => (fs, .error e)
    | .ok _ =>
        if ¬ tmpCreateOk then (fs, .error "failed to create temp file")
        else
          match net with
          | .fail written msg =>
              (((fs.setFile tmpName []).setFile tmpName written).removeFile tmpName,
               .error msg)
          | .ok bytes =>
              ((((fs.setFile tmpName []).setFile tmpName bytes).removeFile tmpName).setFile
                 targetPath bytes,
               .ok (Int.ofNat bytes.length))

/-- Filesystem and request for the C7 witness: the target file already holds
two bytes, the temp name is fresh, and the network download fails after
writing one partial byte. -/
def c7fs : FS := ⟨[("target.jpg", [9, 9])]⟩

def c7req : MediaDownloadRequest := ⟨"u", "/p", [1], [], [], 0, "image", "image/jpeg"⟩

def c7db : DB :=
  ⟨[⟨"c1", "A", 0⟩],
   [⟨"m1", "c1", "s", "pic", 3, false, "image", "", "", "/p", "", [1], [], [], 0, none, none⟩]⟩

def c7info : MessageDownloadInfo :=
  toInfo c7db ⟨"m1", "c1", "s", "pic", 3, false, "image", "", "", "/p", "", [1], [], [], 0,
    none, none⟩

def c7envFail : Env :=
  ⟨fun _ _ => "/media/t", fun _ => true, fun _ _ => .error "network down", fun _ => false, 11⟩

theorem mergeRow_id (old : MessageRow) (a : StoreMessageArgs) :
    (mergeRow old a).id = old.id := rfl

theorem mergeRow_chatJID (old : MessageRow) (a : StoreMessageArgs) :
    (mergeRow old a).chatJID = old.chatJID := rfl

theorem find?_storeMessageList (a : StoreMessageArgs) (l : List MessageRow) (r : MessageRow)
    (h : l.find? (fun m => m.id = a.id ∧ m.chatJID = a.chatJID) = some r) :
    (storeMessageList a l).find? (fun m => m.id = a.id ∧ m.chatJID = a.chatJID)
      = some (mergeRow r a) := by
  induction l with
  | nil => simp at h
  | cons m rest ih =>
      by_cases hk : m.id = a.id ∧ m.chatJID = a.chatJID
      · rw [List.find?_cons_of_pos _ (by simpa using hk)] at h
        obtain rfl : m = r := by simpa using h
        rw [storeMessageList, if_pos hk]
        exact List.find?_cons_of_pos _
          (by simp [mergeRow_id, mergeRow_chatJID, hk.1, hk.2])
      · rw [List.find?_cons_of_neg _ (by simpa using hk)] at h
        rw [storeMessageList, if_neg hk]
        rw [List.find?_cons_of_neg _ (by simpa using hk)]
        exact ih h

/-- After an upsert on an existing key, looking the key up yields the merged
row. -/
theorem findMessage_StoreMessage (db : DB) (a : StoreMessageArgs) (r : MessageRow)
    (h : findMessage db a.id a.chatJID = some r) :
    findMessage (StoreMessage db a) a.id a.chatJID = some (mergeRow r a) :=
  find?_storeMessageList a db.messages r h

theorem find?_storeChatList (jid name : String) (t : Int) (l : List ChatRow) (c : ChatRow)
    (h : l.find? (fun x => x.jid = jid) = some c) :
    (storeChatList jid name t l).find? (fun x => x.jid = jid)
      = some { c with name := mergeChatName jid c.name name, lastMessageTime := t } := by
  induction l with
  | nil => simp at h
  | cons x rest ih =>
      by_cases hk : x.jid = jid
      · rw [List.find?_cons_of_pos _ (by simpa using hk)] at h
        obtain rfl : x = c := by simpa using h
        rw [storeChatList, if_pos hk]
        exact List.find?_cons_of_pos _ (by simpa using hk)
      · rw [List.find?_cons_of_neg _ (by simpa using hk)] at h
        rw [storeChatList, if_neg hk]
        rw [List.find?_cons_of_neg _ (by simpa using hk)]
        exact ih h

/-- After a chats upsert on an existing jid, the stored row has the merged name
and the new timestamp. -/
theorem findChat_StoreChat (db : DB) (jid name : String) (t : Int) (c : ChatRow)
    (h : findChat db jid = some c) :
    findChat (StoreChat db jid name t) jid
      = some { c with name := mergeChatName jid c.name name, lastMessageTime := t } :=
  find?_storeChatList jid name t db.chats c h

theorem find?_storeChatList_new (jid name : String) (t : Int) (l : List ChatRow)
    (h : l.find? (fun x => x.jid = jid) = none) :
    (storeChatList jid name t l).find? (fun x => x.jid = jid)
      = some { jid := jid, name := name, lastMessageTime := t } := by
  induction l with
  | nil => simp [storeChatList]
  | cons x rest ih =>
      have hall := List.find?_eq_none.mp h
      have hx : ¬ x.jid = jid := by simpa using hall x (by simp)
      rw [storeChatList, if_neg hx, List.find?_cons_of_neg _ (by simpa using hx)]
      exact ih (List.find?_eq_none.mpr (fun a ha => hall a (by simp [ha])))

/-- When no chat row with the jid exists, the upsert inserts one. -/
theorem findChat_StoreChat_new (db : DB) (jid name : String) (t : Int)
    (h : findChat db jid = none) :
    findChat (StoreChat db jid name t) jid
      = some { jid := jid, name := name, lastMessageTime := t } :=
  find?_storeChatList_new jid name t db.chats h

theorem mergeRow_insertRow (a : StoreMessageArgs) :
    mergeRow (insertRow a) a = insertRow a := by
  unfold mergeRow insertRow
  split_ifs <;> rfl

theorem mergeRow_idem (old : MessageRow) (a : StoreMessageArgs) :
    mergeRow (mergeRow old a) a = mergeRow old a := by
  unfold mergeRow
  split_ifs <;> rfl

theorem storeMessageList_idem (a : StoreMessageArgs) (l : List MessageRow) :
    storeMessageList a (storeMessageList a l) = storeMessageList a l := by
  induction l with
  | nil =>
      rw [storeMessageList, storeMessageList, if_pos ⟨rfl, rfl⟩, mergeRow_insertRow]
  | cons m rest ih =>
      by_cases hk : m.id = a.id ∧ m.chatJID = a.chatJID
      · rw [storeMessageList, if_pos hk, storeMessageList,
          if_pos (by simp [mergeRow_id, mergeRow_chatJID, hk.1, hk.2]),
          mergeRow_idem]
      · rw [storeMessageList, if_neg hk, storeMessageList, if_neg hk, ih]

theorem if_ne_string_swap {α : Sort _} (s : String) (x y : α) :
    (if s ≠ "" then x else y) = if s = "" then y else x := by
  by_cases h : s = "" <;> simp [h]

theorem if_length_pos_swap {α : Sort _} (l : List Nat) (x y : α) :
    (if 0 < l.length then x else y) = if l = [] then y else x := by
  cases l <;> simp

/-- Claim C4: upsertMessage is idempotent: two upserts with identical arguments
leave the same database state as one.  The model's `StoreMessage` is total: the
Go function fails only on storage faults, never because the (id, chat_jid) row
already exists. -/
theorem c4_upsertMessage_idempotent (db : DB) (a : StoreMessageArgs) :
    StoreMessage (StoreMessage db a) a = StoreMessage db a := by
  simp [StoreMessage, storeMessageList_idem]

/-- Claim C1: field-merge monotonicity of upsertMessage.  First conjunct: for
key ("m1","c1"), writing (mediaKey K1, filename "") then (mediaKey [],
filename "photo.jpg") with all other arguments equal stores a row with
mediaKey = K1 and filename = "photo.jpg".  Second conjunct: filename,
direct path, mime type, media key and the two file hashes are overwritten only
when the incoming value is non-empty, and file length only when the incoming
uint64 is positive, so no write erases another write's non-empty contribution
to these fields. -/
theorem c1_field_merge_monotonic :
    (∀ (cs : List ChatRow) (sender content : String) (ts : Int) (ifm : Bool)
       (mt u dp mime : String) (sha esha : List Nat) (fl : Nat) (K1 : List Nat),
       K1 ≠ [] →
       ∃ r, findMessage
           (StoreMessage
             (StoreMessage ⟨cs, []⟩
               ⟨"m1", "c1", sender, content, ts, ifm, mt, "", u, dp, mime, K1, sha, esha, fl⟩)
             ⟨"m1", "c1", sender, content, ts, ifm, mt, "photo.jpg", u, dp, mime, [], sha, esha, fl⟩)
           "m1" "c1" = some r
         ∧ r.mediaKey = K1 ∧ r.filename = "photo.jpg") ∧
    (∀ (old : MessageRow) (a : StoreMessageArgs),
       (a.filename = "" → (mergeRow old a).filename = old.filename) ∧
       (a.directPath = "" → (mergeRow old a).directPath = old.directPath) ∧
       (a.mimeType = "" → (mergeRow old a).mimeType = old.mimeType) ∧
       (a.mediaKey = [] → (mergeRow old a).mediaKey = old.mediaKey) ∧
       (a.fileSHA256 = [] → (mergeRow old a).fileSHA256 = old.fileSHA256) ∧
       (a.fileEncSHA256 = [] → (mergeRow old a).fileEncSHA256 = old.fileEncSHA256) ∧
       ((mergeRow old a).fileLength ≠ old.fileLength → 0 < a.fileLength % 2 ^ 64)) := by
  constructor
  · intro cs sender content ts ifm mt u dp mime sha esha fl K1 hK
    refine ⟨mergeRow
      (insertRow ⟨"m1", "c1", sender, content, ts, ifm, mt, "", u, dp, mime, K1, sha, esha, fl⟩)
      ⟨"m1", "c1", sender, content, ts, ifm, mt, "photo.jpg", u, dp, mime, [], sha, esha, fl⟩,
      ?_, ?_, ?_⟩
    · show findMessage ⟨cs, storeMessageList _ (storeMessageList _ [])⟩ "m1" "c1" = _
      rw [storeMessageList, storeMessageList, if_pos ⟨rfl, rfl⟩]
      exact List.find?_cons_of_pos _ (by simp [mergeRow_id, mergeRow_chatJID, insertRow])
    · show (mergeRow (insertRow _) _).mediaKey = K1
      simp [mergeRow, insertRow]
    · show (mergeRow (insertRow _) _).filename = "photo.jpg"
      simp [mergeRow]
  · intro old a
    refine ⟨fun h => ?_, fun h => ?_, fun h => ?_, fun h => ?_, fun h => ?_, fun h => ?_,
      fun h => ?_⟩
    · simp [mergeRow, h]
    · simp [mergeRow, h]
    · simp [mergeRow, h]
    · simp [mergeRow, h]
    · simp [mergeRow, h]
    · simp [mergeRow, h]
    · by_contra hfl
      have h0 : intFileLength a.fileLength = 0 := by
        unfold intFileLength
        rw [if_neg hfl]
      exact h (by simp [mergeRow, h0])

theorem c1_field_merge_monotonic_witness :
    ([1, 2] : List Nat) ≠ [] ∧
    (∃ r, findMessage
        (StoreMessage
          (StoreMessage ⟨[], []⟩
            ⟨"m1", "c1", "s", "hi", 7, false, "image", "", "u", "/p", "image/jpeg",
              [1, 2], [], [], 0⟩)
          ⟨"m1", "c1", "s", "hi", 7, false, "image", "photo.jpg", "u", "/p", "image/jpeg",
            [], [], [], 0⟩)
        "m1" "c1" = some r
      ∧ r.mediaKey = [1, 2] ∧ r.filename = "photo.jpg") ∧
    (∀ old : MessageRow,
      ({ id := "m1", chatJID := "c1", sender := "s", content := "hi", timestamp := 7,
         isFromMe := false, mediaType := "image", filename := "", url := "u",
         directPath := "/p", mimeType := "image/jpeg", mediaKey := [1, 2],
         fileSHA256 := [], fileEncSHA256 := [], fileLength := 0 } : StoreMessageArgs).filename
           = "" →
      (mergeRow old ⟨"m1", "c1", "s", "hi", 7, false, "image", "", "u", "/p", "image/jpeg",
        [1, 2], [], [], 0⟩).filename = old.filename) := by
  refine ⟨by decide, c1_field_merge_monotonic.1 [] "s" "hi" 7 false "image" "u" "/p"
    "image/jpeg" [] [] 0 [1, 2] (by decide), fun old =>
      (c1_field_merge_monotonic.2 old _).1⟩

/-- Claim C10: on an upsert over an existing (id, chat_jid) row, sender,
content, timestamp, is_from_me, media_type and url are replaced
unconditionally by the incoming values (even when empty, or older in
timestamp), while filename, direct_path, mime_type, media_key, both file
hashes and file_length receive the keep-old-when-incoming-empty (positive,
for file_length) merge. -/
theorem c10_last_write_wins_non_merged (db : DB) (a : StoreMessageArgs) (r : MessageRow)
    (h : findMessage db a.id a.chatJID = some r) :
    findMessage (StoreMessage db a) a.id a.chatJID = some
      { id := r.id, chatJID := r.chatJID
        sender := a.sender, content := a.content, timestamp := a.timestamp
        isFromMe := a.isFromMe, mediaType := a.mediaType, url := a.url
        filename := if a.filename = "" then r.filename else a.filename
        directPath := if a.directPath = "" then r.directPath else a.directPath
        mimeType := if a.mimeType = "" then r.mimeType else a.mimeType
        mediaKey := if a.mediaKey = [] then r.mediaKey else a.mediaKey
        fileSHA256 := if a.fileSHA256 = [] then r.fileSHA256 else a.fileSHA256
        fileEncSHA256 := if a.fileEncSHA256 = [] then r.fileEncSHA256 else a.fileEncSHA256
        fileLength := if 0 < intFileLength a.fileLength then intFileLength a.fileLength
                      else r.fileLength
        localPath := r.localPath, downloadedAt := r.downloadedAt } := by
  rw [findMessage_StoreMessage db a r h]
  unfold mergeRow
  rw [if_ne_string_swap, if_ne_string_swap, if_ne_string_swap,
    if_length_pos_swap, if_length_pos_swap, if_length_pos_swap]

theorem c10_last_write_wins_non_merged_witness :
    findMessage (StoreMessage ⟨[], [c10oldRow]⟩ c10args) "m1" "c1"
      = some ⟨"m1", "c1", "s1", "", 2, false, "", "f.jpg", "", "/p", "image/jpeg",
          [1], [2], [3], 4, none, none⟩ := by
  have h := c10_last_write_wins_non_merged ⟨[], [c10oldRow]⟩ c10args c10oldRow (by decide)
  simpa [c10args, c10oldRow, intFileLength, toInt64] using h

/-- Claim C3 is false as stated: after the complete write `c3write1` stored
media_type = "image" and url = "u", the later partial write `c3write2` (all
media fields empty) erases both — `StoreMessage` replaces `media_type` and
`url` unconditionally (store.go:219,221), so they do not keep their prior
non-empty values as the claim asserts for every media-descriptor field. -/
theorem c3_counterexample :
    (findMessage (StoreMessage c3db0 c3write1) "m1" "c1").map MessageRow.mediaType
        = some "image" ∧
    (findMessage (StoreMessage c3db0 c3write1) "m1" "c1").map MessageRow.url = some "u" ∧
    (findMessage (StoreMessage (StoreMessage c3db0 c3write1) c3write2) "m1" "c1").map
        MessageRow.mediaType = some "" ∧
    (findMessage (StoreMessage (StoreMessage c3db0 c3write1) c3write2) "m1" "c1").map
        MessageRow.url = some "" := by
  decide

/-- Claim C3 (amended): a later upsert whose media descriptor is entirely
empty is a merge for filename, direct_path, mime_type, media_key, both file
hashes and file_length — those keep their previously stored values — while
media_type and url (together with sender, content, timestamp, is_from_me) are
replaced by the incoming values, hence erased when the incoming values are
empty. -/
theorem c3_amended_partial_observation_merge (db : DB) (a : StoreMessageArgs) (r : MessageRow)
    (h : findMessage db a.id a.chatJID = some r)
    (hfn : a.filename = "") (hdp : a.directPath = "") (hmt : a.mimeType = "")
    (hmk : a.mediaKey = []) (hs : a.fileSHA256 = []) (hes : a.fileEncSHA256 = [])
    (hfl : a.fileLength = 0) :
    findMessage (StoreMessage db a) a.id a.chatJID = some
      { r with
        sender := a.sender, content := a.content, timestamp := a.timestamp,
        isFromMe := a.isFromMe, mediaType := a.mediaType, url := a.url } := by
  rw [findMessage_StoreMessage db a r h]
  unfold mergeRow
  simp [hfn, hdp, hmt, hmk, hs, hes, hfl, intFileLength]

theorem c3_amended_partial_observation_merge_witness :
    findMessage (StoreMessage (StoreMessage c3db0 c3write1) c3write2) "m1" "c1"
      = some ⟨"m1", "c1", "s", "pic", 5, false, "", "f.jpg", "", "/p", "image/jpeg",
          [1], [2], [3], 9, none, none⟩ := by
  have h := c3_amended_partial_observation_merge (StoreMessage c3db0 c3write1) c3write2
    ⟨"m1", "c1", "s", "pic", 5, false, "image", "f.jpg", "u", "/p", "image/jpeg",
      [1], [2], [3], 9, none, none⟩ (by decide) rfl rfl rfl rfl rfl rfl rfl
  simpa [c3write2] using h

/-- Claim C2: chat-name monotonicity of upsertChat.  With `c` the stored row
for `jid`: (1) once the stored name is real (non-empty and different from the
jid), a later upsert passing an empty name or the jid itself leaves the name
unchanged (only the timestamp moves); (2) a later upsert passing a real name
replaces the name; (3) when the stored name is empty or equals the jid, any
non-empty incoming name replaces it; (4) once real, the stored name stays real
after any upsert.  (A NULL stored name never occurs: every insert binds a Go
string, see `mergeChatName`.) -/
theorem c2_chat_name_monotonic (db : DB) (jid name : String) (t : Int) (c : ChatRow)
    (h : findChat db jid = some c) :
    ((c.name ≠ "" ∧ c.name ≠ jid) → (name = "" ∨ name = jid) →
        findChat (StoreChat db jid name t) jid = some { c with lastMessageTime := t }) ∧
    ((name ≠ "" ∧ name ≠ jid) →
        findChat (StoreChat db jid name t) jid
          = some { c with name := name, lastMessageTime := t }) ∧
    ((c.name = "" ∨ c.name = jid) → name ≠ "" →
        findChat (StoreChat db jid name t) jid
          = some { c with name := name, lastMessageTime := t }) ∧
    (∀ c2, (c.name ≠ "" ∧ c.name ≠ jid) →
        findChat (StoreChat db jid name t) jid = some c2 → c2.name ≠ "" ∧ c2.name ≠ jid) := by
  refine ⟨?_, ?_, ?_, ?_⟩
  · rintro ⟨h1, h2⟩ hdeg
    rw [findChat_StoreChat db jid name t c h]
    have hm : mergeChatName jid c.name name = c.name := by
      unfold mergeChatName
      rcases hdeg with rfl | rfl
      · rw [if_neg (by simp), if_neg h1]
      · rw [if_neg, if_neg h1]
        rintro ⟨hne, hor⟩
        rcases hor with hx | hx | hx
        · exact hx rfl
        · exact h1 hx
        · exact h2 hx
    rw [hm]
  · rintro ⟨h1, h2⟩
    rw [findChat_StoreChat db jid name t c h]
    have hm : mergeChatName jid c.name name = name := by
      unfold mergeChatName
      rw [if_pos ⟨h1, Or.inl h2⟩]
    rw [hm]
  · intro hdeg h1
    rw [findChat_StoreChat db jid name t c h]
    have hm : mergeChatName jid c.name name = name := by
      unfold mergeChatName
      rcases hdeg with hx | hx
      · rw [if_pos ⟨h1, Or.inr (Or.inl hx)⟩]
      · rw [if_pos ⟨h1, Or.inr (Or.inr hx)⟩]
    rw [hm]
  · rintro c2 ⟨h1, h2⟩ heq
    rw [findChat_StoreChat db jid name t c h] at heq
    obtain rfl : ({ c with name := mergeChatName jid c.name name, lastMessageTime := t }
        : ChatRow) = c2 := by
      exact (Option.some.injEq _ _).mp heq
    show mergeChatName jid c.name name ≠ "" ∧ mergeChatName jid c.name name ≠ jid
    unfold mergeChatName
    by_cases hA : name ≠ "" ∧ (name ≠ jid ∨ c.name = "" ∨ c.name = jid)
    · rw [if_pos hA]
      obtain ⟨hne, hor⟩ := hA
      refine ⟨hne, ?_⟩
      rcases hor with hx | hx | hx
      · exact hx
      · exact absurd hx h1
      · exact absurd hx h2
    · rw [if_neg hA, if_neg h1]
      exact ⟨h1, h2⟩

theorem c2_chat_name_monotonic_witness :
    findChat (StoreChat ⟨[⟨"c1", "Real Name", 0⟩], []⟩ "c1" "c1" 5) "c1"
      = some ⟨"c1", "Real Name", 5⟩ ∧
    findChat (StoreChat ⟨[⟨"c1", "Real Name", 0⟩], []⟩ "c1" "" 5) "c1"
      = some ⟨"c1", "Real Name", 5⟩ ∧
    findChat (StoreChat ⟨[⟨"c1", "Real Name", 0⟩], []⟩ "c1" "Other Name" 5) "c1"
      = some ⟨"c1", "Other Name", 5⟩ ∧
    findChat (StoreChat ⟨[⟨"c1", "c1", 0⟩], []⟩ "c1" "Jane Smith" 5) "c1"
      = some ⟨"c1", "Jane Smith", 5⟩ := by
  refine ⟨?_, ?_, ?_, ?_⟩
  · exact (c2_chat_name_monotonic ⟨[⟨"c1", "Real Name", 0⟩], []⟩ "c1" "c1" 5
      ⟨"c1", "Real Name", 0⟩ (by decide)).1 (by decide) (Or.inr rfl)
  · exact (c2_chat_name_monotonic ⟨[⟨"c1", "Real Name", 0⟩], []⟩ "c1" "" 5
      ⟨"c1", "Real Name", 0⟩ (by decide)).1 (by decide) (Or.inl rfl)
  · exact (c2_chat_name_monotonic ⟨[⟨"c1", "Real Name", 0⟩], []⟩ "c1" "Other Name" 5
      ⟨"c1", "Real Name", 0⟩ (by decide)).2.1 (by decide)
  · exact (c2_chat_name_monotonic ⟨[⟨"c1", "c1", 0⟩], []⟩ "c1" "Jane Smith" 5
      ⟨"c1", "c1", 0⟩ (by decide)).2.2.1 (Or.inr rfl) (by decide)

theorem two_mem_one_lt_length {α : Type _} {l : List α} {a b : α}
    (ha : a ∈ l) (hb : b ∈ l) (hab : a ≠ b) : 1 < l.length := by
  induction l with
  | nil => simp at ha
  | cons x t ih =>
      rcases List.mem_cons.mp ha with rfl | ha2
      · rcases List.mem_cons.mp hb with rfl | hb2
        · exact absurd rfl hab
        · have := List.length_pos.mpr (List.ne_nil_of_mem hb2)
          simp only [List.length_cons]
          omega
      · have := List.length_pos.mpr (List.ne_nil_of_mem ha2)
        simp only [List.length_cons]
        omega

theorem filter_key_unique {l : List MessageRow}
    (h : (l.map (fun m => (m.id, m.chatJID))).Nodup)
    {m : MessageRow} (hm : m ∈ l) {id c : String} (hid : m.id = id) (hc : m.chatJID = c) :
    l.filter (msgFilter id (some c)) = [m] := by
  induction l with
  | nil => simp at hm
  | cons x t ih =>
      simp only [List.map_cons, List.nodup_cons] at h
      obtain ⟨hx, ht⟩ := h
      rcases List.mem_cons.mp hm with rfl | hm2
      · rw [List.filter_cons_of_pos (by simp [msgFilter, hid, hc])]
        have htnil : t.filter (msgFilter id (some c)) = [] := by
          refine List.filter_eq_nil_iff.mpr (fun y hy hpy => ?_)
          simp only [msgFilter, Bool.and_eq_true, decide_eq_true_eq] at hpy
          apply hx
          refine List.mem_map.mpr ⟨y, hy, ?_⟩
          rw [hpy.1, hpy.2, hid, hc]
        rw [htnil]
      · have hxf : ¬ (msgFilter id (some c) x = true) := by
          intro hpx
          simp only [msgFilter, Bool.and_eq_true, decide_eq_true_eq] at hpx
          apply hx
          refine List.mem_map.mpr ⟨m, hm2, ?_⟩
          rw [hid, hc, hpx.1, hpx.2]
        rw [List.filter_cons_of_neg (by simpa using hxf)]
        exact ih ht hm2

/-- Claim C5: lookup discrimination of getMessageForDownload.  (1) When no
chat JID is supplied and the id matches rows in two different chats, the
result is the ambiguity error (no row is returned).  (2) When nothing
matches, the result is the distinct not-found condition `ErrNoRows`.  (3)
When a chat JID is supplied, the unique row with that (id, chat) key is
returned.  (4) The two error conditions are distinct. -/
theorem c5_download_lookup_discrimination (db : DB) (hwf : db.wfMessages) (id : String) :
    (∀ m1 m2, m1 ∈ db.messages → m2 ∈ db.messages → m1.id = id → m2.id = id →
        m1.chatJID ≠ m2.chatJID →
        GetMessageForDownload db id none = .error (.ambiguous id)) ∧
    (∀ chatJID, (∀ m ∈ db.messages, msgFilter id chatJID m = false) →
        GetMessageForDownload db id chatJID = .error .noRows) ∧
    (∀ c m, m ∈ db.messages → m.id = id → m.chatJID = c →
        GetMessageForDownload db id (some c) = .ok (toInfo db m)) ∧
    (∀ i, (LookupError.ambiguous i) ≠ LookupError.noRows) := by
  refine ⟨?_, ?_, ?_, ?_⟩
  · intro m1 m2 hm1 hm2 hid1 hid2 hne
    have hmem1 : m1 ∈ db.messages.filter (msgFilter id none) :=
      List.mem_filter.mpr ⟨hm1, by simp [msgFilter, hid1]⟩
    have hmem2 : m2 ∈ db.messages.filter (msgFilter id none) :=
      List.mem_filter.mpr ⟨hm2, by simp [msgFilter, hid2]⟩
    have hlen : 1 < (db.messages.filter (msgFilter id none)).length :=
      two_mem_one_lt_length hmem1 hmem2 (fun he => hne (by rw [he]))
    rcases hfe : db.messages.filter (msgFilter id none) with _ | ⟨x, xs⟩
    · rw [hfe] at hlen; simp at hlen
    · rw [hfe] at hlen
      simp only [List.length_cons] at hlen
      unfold GetMessageForDownload
      rw [hfe]
      simp only [List.map_cons]
      rw [if_pos ⟨by simpa using (by omega : 0 < xs.length), by trivial⟩]
  · intro chatJID hall
    have hfe : db.messages.filter (msgFilter id chatJID) = [] :=
      List.filter_eq_nil_iff.mpr (fun m hm => by simp [hall m hm])
    unfold GetMessageForDownload
    rw [hfe]
    rfl
  · intro c m hm hid hc
    have hfe := filter_key_unique hwf hm hid hc
    unfold GetMessageForDownload
    rw [hfe]
    simp
  · intro i
    simp

theorem c5_download_lookup_discrimination_witness :
    c5db.wfMessages ∧
    GetMessageForDownload c5db "dup1" none = .error (.ambiguous "dup1") ∧
    GetMessageForDownload c5db "zzz" none = .error .noRows ∧
    GetMessageForDownload c5db "dup1" (some "c2")
      = .ok (toInfo c5db
          ⟨"dup1", "c2", "s2", "y", 2, false, "", "", "", "", "", [], [], [], 0, none, none⟩) := by
  have hwf : c5db.wfMessages := by decide
  refine ⟨hwf, ?_, ?_, ?_⟩
  · exact (c5_download_lookup_discrimination c5db hwf "dup1").1
      ⟨"dup1", "c1", "s1", "x", 1, false, "", "", "", "", "", [], [], [], 0, none, none⟩
      ⟨"dup1", "c2", "s2", "y", 2, false, "", "", "", "", "", [], [], [], 0, none, none⟩
      (by decide) (by decide) rfl rfl (by decide)
  · exact (c5_download_lookup_discrimination c5db hwf "zzz").2.1 none (by decide)
  · exact (c5_download_lookup_discrimination c5db hwf "dup1").2.2.1 "c2"
      ⟨"dup1", "c2", "s2", "y", 2, false, "", "", "", "", "", [], [], [], 0, none, none⟩
      (by decide) rfl rfl

/-- Claim C9: a list operation whose filter matches zero rows succeeds and its
envelope carries `success:true` with an empty JSON sequence as the data
payload, which is distinct from the null payload. -/
theorem c9_empty_lists_not_null :
    (∀ (db : DB) (chatJID query : Option String) (limit page : Int),
       db.messages.filter (fun m =>
           messagesWhere
             { after := none, before := none, sender := none,
               chatJID := chatJID, query := query, limit := limit, page := page } m
           && (findChat db m.chatJID).isSome) = [] →
       appListMessages db chatJID query limit page = outputSuccess (.arr [])) ∧
    (∀ (db : DB) (query : String),
       db.chats.filter (fun c =>
           (likeCI ("%" ++ query ++ "%") c.name || likeCI ("%" ++ query ++ "%") c.jid)
           && !(likeCI "%@g.us" c.jid)) = [] →
       appSearchContacts db query = outputSuccess (.arr [])) ∧
    (∀ (db : DB) (query : Option String) (limit page : Int),
       db.chats.filter (chatsWhere { query := query, limit := limit, page := page }) = [] →
       appListChats db query limit page = outputSuccess (.arr [])) ∧
    Json.arr [] ≠ Json.null := by
  refine ⟨?_, ?_, ?_, by intro h; exact Json.noConfusion h⟩
  · intro db chatJID query limit page h
    unfold appListMessages ListMessages
    rw [h]
    simp [sqlLimit, sqlOffset, List.insertionSort]
  · intro db query h
    unfold appSearchContacts SearchContacts
    rw [h]
    simp [List.insertionSort]
  · intro db query limit page h
    unfold appListChats ListChats
    rw [h]
    simp [sqlLimit, sqlOffset, List.insertionSort]

theorem c9_empty_lists_not_null_witness :
    appListMessages ⟨[], []⟩ none none 10 0 = outputSuccess (.arr []) ∧
    appSearchContacts ⟨[], []⟩ "John" = outputSuccess (.arr []) ∧
    appListChats ⟨[], []⟩ none 10 0 = outputSuccess (.arr []) :=
  ⟨c9_empty_lists_not_null.1 ⟨[], []⟩ none none 10 0 rfl,
   c9_empty_lists_not_null.2.1 ⟨[], []⟩ "John" rfl,
   c9_empty_lists_not_null.2.2.1 ⟨[], []⟩ none 10 0 rfl⟩

theorem likeMatch_percent_nil2 (ps : List Char) :
    likeMatch ('%' :: ps) [] = likeMatch ps [] := rfl

theorem likeMatch_percent_cons (ps : List Char) (c : Char) (s1 : List Char) :
    likeMatch ('%' :: ps) (c :: s1)
      = (likeMatch ps (c :: s1) || likeMatch ('%' :: ps) s1) := rfl

theorem likeMatch_percent_one (s : List Char) : likeMatch ['%'] s = true := by
  induction s with
  | nil => rfl
  | cons c s1 ih => simp [likeMatch_percent_cons, ih]

theorem likeMatch_percent_iff (ps s : List Char) :
    likeMatch ('%' :: ps) s = true ↔ ∃ n, likeMatch ps (s.drop n) = true := by
  induction s with
  | nil =>
      rw [likeMatch_percent_nil2]
      constructor
      · intro h; exact ⟨0, h⟩
      · rintro ⟨n, hn⟩; simpa using hn
  | cons c s1 ih =>
      rw [likeMatch_percent_cons]
      constructor
      · intro h
        rcases Bool.or_eq_true_iff.mp h with h1 | h2
        · exact ⟨0, h1⟩
        · obtain ⟨n, hn⟩ := ih.mp h2
          exact ⟨n + 1, hn⟩
      · rintro ⟨n, hn⟩
        cases n with
        | zero => exact Bool.or_eq_true_iff.mpr (Or.inl hn)
        | succ n => exact Bool.or_eq_true_iff.mpr (Or.inr (ih.mpr ⟨n, hn⟩))

theorem likeMatch_lit (q : List Char) (hq : ∀ c ∈ q, c ≠ '%' ∧ c ≠ '_') (s : List Char) :
    (likeMatch q s = true ↔ s.map asciiLower = q.map asciiLower) := by
  induction q generalizing s with
  | nil => cases s <;> simp [likeMatch]
  | cons a as ih =>
      obtain ⟨ha1, ha2⟩ := hq a (by simp)
      have hq2 : ∀ c ∈ as, c ≠ '%' ∧ c ≠ '_' := fun c hc => hq c (by simp [hc])
      cases s with
      | nil =>
          rw [likeMatch, if_neg ha1]
          simp
      | cons c s1 =>
          rw [likeMatch, if_neg ha1]
          constructor
          · intro h
            obtain ⟨h1, h2⟩ := Bool.and_eq_true_iff.mp h
            rcases Bool.or_eq_true_iff.mp h1 with hu | he
            · exact absurd (by simpa using hu) ha2
            · simp only [List.map_cons, List.cons.injEq]
              exact ⟨(by simpa using he : asciiLower a = asciiLower c).symm, (ih hq2 s1).mp h2⟩
          · intro h
            simp only [List.map_cons, List.cons.injEq] at h
            refine Bool.and_eq_true_iff.mpr ⟨Bool.or_eq_true_iff.mpr (Or.inr ?_), (ih hq2 s1).mpr h.2⟩
            simpa using h.1.symm

theorem likeMatch_lit_percent (q : List Char) (hq : ∀ c ∈ q, c ≠ '%' ∧ c ≠ '_')
    (s : List Char) :
    (likeMatch (q ++ ['%']) s = true ↔ ∃ t, s.map asciiLower = q.map asciiLower ++ t) := by
  induction q generalizing s with
  | nil =>
      simp [likeMatch_percent_one]
  | cons a as ih =>
      obtain ⟨ha1, ha2⟩ := hq a (by simp)
      have hq2 : ∀ c ∈ as, c ≠ '%' ∧ c ≠ '_' := fun c hc => hq c (by simp [hc])
      cases s with
      | nil =>
          rw [show (a :: as) ++ ['%'] = a :: (as ++ ['%']) from rfl, likeMatch, if_neg ha1]
          simp
      | cons c s1 =>
          rw [show (a :: as) ++ ['%'] = a :: (as ++ ['%']) from rfl, likeMatch, if_neg ha1]
          constructor
          · intro h
            obtain ⟨h1, h2⟩ := Bool.and_eq_true_iff.mp h
            rcases Bool.or_eq_true_iff.mp h1 with hu | he
            · exact absurd (by simpa using hu) ha2
            · obtain ⟨t, ht⟩ := (ih hq2 s1).mp h2
              refine ⟨t, ?_⟩
              simp only [List.map_cons, List.cons_append]
              rw [ht, (show asciiLower a = asciiLower c by simpa using he)]
          · rintro ⟨t, ht⟩
            simp only [List.map_cons, List.cons_append, List.cons.injEq] at ht
            refine Bool.and_eq_true_iff.mpr
              ⟨Bool.or_eq_true_iff.mpr (Or.inr (by simpa using ht.1.symm)),
               (ih hq2 s1).mpr ⟨t, ht.2⟩⟩

theorem map_take_comm {α β : Type _} (f : α → β) (l : List α) (n : Nat) :
    (l.take n).map f = (l.map f).take n := by
  induction l generalizing n with
  | nil => simp
  | cons x t ih => cases n <;> simp [ih]

theorem map_drop_comm {α β : Type _} (f : α → β) (l : List α) (n : Nat) :
    (l.drop n).map f = (l.map f).drop n := by
  induction l generalizing n with
  | nil => simp
  | cons x t ih => cases n <;> simp [ih]

/-- LIKE with the pattern `'%' ++ q ++ '%'` for a wildcard-free `q` is exactly
case-insensitive substring matching. -/
theorem likeMatch_substring (q : List Char) (hq : ∀ c ∈ q, c ≠ '%' ∧ c ≠ '_') (s : List Char) :
    (likeMatch ('%' :: (q ++ ['%'])) s = true ↔ (q.map asciiLower) <:+: (s.map asciiLower)) := by
  rw [likeMatch_percent_iff]
  constructor
  · rintro ⟨n, hn⟩
    obtain ⟨t, ht⟩ := (likeMatch_lit_percent q hq _).mp hn
    refine ⟨(s.take n).map asciiLower, t, ?_⟩
    rw [map_drop_comm] at ht
    rw [List.append_assoc, ← ht, map_take_comm, List.take_append_drop]
  · rintro ⟨u, t, hut⟩
    refine ⟨u.length, (likeMatch_lit_percent q hq _).mpr ⟨t, ?_⟩⟩
    rw [map_drop_comm, ← hut, List.append_assoc, List.drop_left]

/-- LIKE with the pattern `'%' ++ q` for a wildcard-free `q` is exactly
case-insensitive suffix matching. -/
theorem likeMatch_suffix (q : List Char) (hq : ∀ c ∈ q, c ≠ '%' ∧ c ≠ '_') (s : List Char) :
    (likeMatch ('%' :: q) s = true ↔ (q.map asciiLower) <:+ (s.map asciiLower)) := by
  rw [likeMatch_percent_iff]
  constructor
  · rintro ⟨n, hn⟩
    have ht := (likeMatch_lit q hq _).mp hn
    rw [map_drop_comm] at ht
    refine ⟨(s.take n).map asciiLower, ?_⟩
    rw [← ht, map_take_comm, List.take_append_drop]
  · rintro ⟨u, hu⟩
    refine ⟨u.length, (likeMatch_lit q hq _).mpr ?_⟩
    rw [map_drop_comm, ← hu, List.drop_left]

/-- Claim C8 (amended): for every query, searchContacts returns at most 50
contacts, ordered by name, all of them non-group chats (JID not ending in the
group suffix "@g.us"); and whenever the query contains no LIKE wildcard
(`%` or `_`), every returned contact matches the query as a case-insensitive
substring of its name or its JID.  (The unrestricted substring reading fails
for wildcard queries, which the source passes into LIKE unescaped — see the
counterexample.) -/
theorem c8_searchContacts_contract (db : DB) (q : String) :
    ((SearchContacts db q).length ≤ 50) ∧
    ((SearchContacts db q).Pairwise (fun a b => a.Name ≤ b.Name)) ∧
    (∀ c ∈ SearchContacts db q, ¬ ((String.data "@g.us") <:+ c.JID.data)) ∧
    ((∀ ch ∈ q.data, ch ≠ '%' ∧ ch ≠ '_') →
      ∀ c ∈ SearchContacts db q,
        (q.data.map asciiLower) <:+: (c.Name.data.map asciiLower) ∨
        (q.data.map asciiLower) <:+: (c.JID.data.map asciiLower)) := by
  have hmem : ∀ c ∈ SearchContacts db q, ∃ ch ∈ db.chats.filter (fun c0 =>
      (likeCI ("%" ++ q ++ "%") c0.name || likeCI ("%" ++ q ++ "%") c0.jid)
      && !(likeCI "%@g.us" c0.jid)),
      c = { PhoneNumber := phoneFromJID ch.jid, Name := ch.name, JID := ch.jid } := by
    intro c hc
    unfold SearchContacts at hc
    obtain ⟨ch, hch, rfl⟩ := List.mem_map.mp hc
    refine ⟨ch, ?_, rfl⟩
    exact (List.perm_insertionSort chatNameLe _).mem_iff.mp (List.mem_of_mem_take hch)
  refine ⟨?_, ?_, ?_, ?_⟩
  · unfold SearchContacts
    rw [List.length_map]
    exact List.length_take_le 50 _
  · unfold SearchContacts
    rw [List.pairwise_map]
    have hs : List.Pairwise chatNameLe
        ((db.chats.filter (fun c =>
          (likeCI ("%" ++ q ++ "%") c.name || likeCI ("%" ++ q ++ "%") c.jid)
          && !(likeCI "%@g.us" c.jid))).insertionSort chatNameLe) :=
      List.sorted_insertionSort chatNameLe _
    exact (hs.sublist (List.take_sublist 50 _)).imp (fun h => h)
  · intro c hc
    obtain ⟨ch, hch, rfl⟩ := hmem c hc
    have hp := (List.mem_filter.mp hch).2
    obtain ⟨-, hgrp⟩ := Bool.and_eq_true_iff.mp hp
    intro hsuf
    have hmap : ("@g.us".data.map asciiLower) <:+ (ch.jid.data.map asciiLower) := by
      obtain ⟨u, hu⟩ := hsuf
      exact ⟨u.map asciiLower, by rw [← List.map_append, hu]⟩
    have hlike : likeMatch ('%' :: String.data "@g.us") ch.jid.data = true := by
      refine (likeMatch_suffix _ (by decide) _).mpr ?_
      rw [show ("@g.us".data.map asciiLower) = "@g.us".data from by decide] at hmap
      exact hmap
    have : likeCI "%@g.us" ch.jid = true := hlike
    rw [this] at hgrp
    simp at hgrp
  · intro hq c hc
    obtain ⟨ch, hch, rfl⟩ := hmem c hc
    have hp := (List.mem_filter.mp hch).2
    obtain ⟨hlk, -⟩ := Bool.and_eq_true_iff.mp hp
    have hpat : ("%" ++ q ++ "%").data = '%' :: (q.data ++ ['%']) := by
      simp [String.data_append]
    rcases Bool.or_eq_true_iff.mp hlk with hname | hjid
    · left
      have : likeMatch ('%' :: (q.data ++ ['%'])) ch.name.data = true := by
        rw [← hpat]; exact hname
      exact (likeMatch_substring q.data hq _).mp this
    · right
      have : likeMatch ('%' :: (q.data ++ ['%'])) ch.jid.data = true := by
        rw [← hpat]; exact hjid
      exact (likeMatch_substring q.data hq _).mp this

/-- C8 counterexample: for the query "%" (passed unescaped into LIKE by
store.go:287), searchContacts returns the chat "John" even though "%" is not a
case-insensitive substring of "john" or of the JID, so "for every query, each
result matches the query as a case-insensitive substring of name or JID" is
false as stated. -/
theorem c8_counterexample :
    SearchContacts c8db "%" = [⟨"a", "John", "a@s.whatsapp.net"⟩] ∧
    ¬ (("%".data.map asciiLower) <:+: ("John".data.map asciiLower)) ∧
    ¬ (("%".data.map asciiLower) <:+: ("a@s.whatsapp.net".data.map asciiLower)) := by
  refine ⟨by decide, by decide, by decide⟩

theorem c8_searchContacts_contract_witness :
    (SearchContacts c8wdb "John").length ≤ 50 ∧
    (("John".data.map asciiLower) <:+: ("John".data.map asciiLower) ∨
     ("John".data.map asciiLower) <:+: ("a@s.whatsapp.net".data.map asciiLower)) ∧
    ¬ ((String.data "@g.us") <:+ ("a@s.whatsapp.net" : String).data) := by
  refine ⟨(c8_searchContacts_contract c8wdb "John").1, ?_, ?_⟩
  · have h := (c8_searchContacts_contract c8wdb "John").2.2.2 (by decide)
      ⟨"a", "John", "a@s.whatsapp.net"⟩ (by decide)
    exact h
  · exact (c8_searchContacts_contract c8wdb "John").2.2.1
      ⟨"a", "John", "a@s.whatsapp.net"⟩ (by decide)

/-- C6 counterexample: the claim says the worker path checks the same
three-field gate (media type, direct path, media key) before attempting a
fetch.  It does not: for the stored message "m1" whose media type is empty
but whose direct path and media key are set, `processMediaJob` passes its
two-field gate (commands.go:404) and invokes the downloader — the store is
mutated by markMediaDownloaded when the downloader succeeds, and the job
outcome depends on the downloader's result, so a fetch is attempted. -/
theorem c6_counterexample :
    c6row.mediaType = "" ∧
    (processMediaJob c6envOk c6db ⟨"m1", "c1"⟩).fst ≠ c6db ∧
    processMediaJob c6envOk c6db ⟨"m1", "c1"⟩ ≠ processMediaJob c6envFail c6db ⟨"m1", "c1"⟩ := by
  exact ⟨rfl, by decide, by decide⟩

/-- Claim C6 (amended): `DownloadMedia` fails with the distinct "no
downloadable media" condition whenever the message exists but lacks any of
media type, direct path or media key, for every environment — so no fetch is
attempted and the store is unchanged.  The background worker's gate
(`processMediaJob`) checks only direct path and media key before attempting a
fetch; when that two-field gate fails the worker silently skips (no fetch,
store unchanged).  An empty media type alone does not stop the worker's gate
(see the counterexample); it only fails later, inside the client's
media-type conversion, still before any network fetch.  The "no downloadable
media" message is distinct from the "not found" message. -/
theorem c6_download_gating (db : DB) (messageID : String) (chatJID : Option String)
    (outputPath : String) (info : MessageDownloadInfo) :
    (∀ env : Env, ¬ trimSpace messageID = "" →
      GetMessageForDownload db (trimSpace messageID) chatJID = .ok info →
      (trimSpace info.MediaType = "" ∨ trimSpace info.DirectPath = "" ∨ info.MediaKey = []) →
      DownloadMedia env db messageID chatJID outputPath
        = (db, outputError ("message " ++ trimSpace messageID ++ " has no downloadable media"))) ∧
    (∀ env : Env, ∀ job : MediaJob,
      GetMessageForDownload db job.messageID (some job.chatJID) = .ok info →
      (trimSpace info.DirectPath = "" ∨ info.MediaKey = []) →
      processMediaJob env db job = (db, .ok ())) ∧
    (∀ mid : String,
      ("message " ++ mid ++ " has no downloadable media")
        ≠ ("message " ++ mid ++ " not found")) := by
  refine ⟨?_, ?_, ?_⟩
  · intro env hne hlook hmiss
    have hcond : trimSpace info.MediaType = "" ∨ trimSpace info.DirectPath = ""
        ∨ info.MediaKey.length = 0 := by
      rcases hmiss with h | h | h
      · exact Or.inl h
      · exact Or.inr (Or.inl h)
      · exact Or.inr (Or.inr (by simp [h]))
    unfold DownloadMedia
    rw [if_neg hne, hlook]
    simp only []
    rw [if_pos hcond]
  · intro env job hlook hmiss
    have hcond : trimSpace info.DirectPath = "" ∨ info.MediaKey.length = 0 := by
      rcases hmiss with h | h
      · exact Or.inl h
      · exact Or.inr (by simp [h])
    unfold processMediaJob
    rw [hlook]
    simp only []
    rw [if_pos hcond]
  · intro mid h
    have h1 := congrArg String.length h
    rw [String.length_append, String.length_append,
      String.length_append, String.length_append] at h1
    have e1 : (" has no downloadable media" : String).length = 26 := by decide
    have e2 : (" not found" : String).length = 10 := by decide
    rw [e1, e2] at h1
    omega

theorem c6_download_gating_witness :
    DownloadMedia c6envOk c6db "m1" (some "c1") ""
      = (c6db, outputError ("message " ++ trimSpace "m1" ++ " has no downloadable media")) ∧
    processMediaJob c6envOk c6db ⟨"m2", "c1"⟩ = (c6db, .ok ()) ∧
    ("message " ++ "m1" ++ " has no downloadable media")
      ≠ ("message " ++ "m1" ++ " not found") := by
  have h := c6_download_gating c6db "m1" (some "c1") "" (toInfo c6db c6row)
  have h2 := c6_download_gating c6db "m2" (some "c1") "" (toInfo c6db c6rowBare)
  exact ⟨h.1 c6envOk (by decide) (by decide) (Or.inl (by decide)),
    h2.2.1 c6envOk ⟨"m2", "c1"⟩ (by decide) (Or.inl (by decide)),
    h.2.2 "m1"⟩

theorem find?_filter_ne (l : List (String × List Nat)) (t p : String) :
    (l.filter (fun e => ¬ e.fst = t)).find? (fun e => e.fst = p)
      = if p = t then none else l.find? (fun e => e.fst = p) := by
  by_cases hp : p = t
  · subst hp
    rw [if_pos rfl]
    refine List.find?_eq_none.mpr (fun e he => ?_)
    have h2 : ¬ e.fst = p := by simpa using (List.mem_filter.mp he).2
    simpa using h2
  · rw [if_neg hp]
    induction l with
    | nil => simp
    | cons x rest ih =>
        by_cases hx : x.fst = t
        · rw [List.filter_cons_of_neg (by simpa using hx)]
          rw [List.find?_cons_of_neg _ (by
            simp only [decide_eq_true_eq]
            rw [hx]
            exact fun h => hp h.symm)]
          exact ih
        · rw [List.filter_cons_of_pos (by simpa using hx)]
          by_cases hxp : x.fst = p
          · rw [List.find?_cons_of_pos _ (by simpa using hxp),
              List.find?_cons_of_pos _ (by simpa using hxp)]
          · rw [List.find?_cons_of_neg _ (by simpa using hxp),
              List.find?_cons_of_neg _ (by simpa using hxp)]
            exact ih

theorem FS.lookup_removeFile (fs : FS) (t p : String) :
    (fs.removeFile t).lookup p = if p = t then none else fs.lookup p := by
  unfold FS.removeFile FS.lookup
  rw [find?_filter_ne]
  by_cases hp : p = t <;> simp [hp]

theorem FS.remove_set_set (fs : FS) (t : String) (a b : List Nat) :
    ((fs.setFile t a).setFile t b).removeFile t = fs.removeFile t := by
  unfold FS.setFile FS.removeFile
  congr 1
  simp only [List.filter_cons]
  simp [List.filter_filter]

/-- Claim C7: atomic download and no store mutation on failure.  First
conjunct: whenever `DownloadMediaToFile` fails, the final target path holds
exactly what it held before — absent or unchanged — because bytes only ever
go to a fresh temp file which the deferred cleanup removes, and the rename
happens only on success.  Second conjunct: on any failure of
`downloadMediaAndPersist` the store is untouched (markMediaDownloaded is not
invoked, the message remains pending-download), and on success the store
update is exactly `MarkMediaDownloaded` with the resolved final path. -/
theorem c7_atomic_download_no_store_mutation :
    (∀ (fs : FS) (req : MediaDownloadRequest) (targetPath tmpName : String)
       (tmpCreateOk : Bool) (net : NetResult) (e : String),
       fs.lookup tmpName = none →
       (DownloadMediaToFile fs req targetPath tmpName tmpCreateOk net).snd = .error e →
       (DownloadMediaToFile fs req targetPath tmpName tmpCreateOk net).fst.lookup targetPath
         = fs.lookup targetPath) ∧
    (∀ (env : Env) (db : DB) (info : MessageDownloadInfo) (requestedPath : String),
       (∀ e, (downloadMediaAndPersist env db info requestedPath).snd = .error e →
          (downloadMediaAndPersist env db info requestedPath).fst = db) ∧
       (∀ r, (downloadMediaAndPersist env db info requestedPath).snd = .ok r →
          (downloadMediaAndPersist env db info requestedPath).fst
            = MarkMediaDownloaded db info.ID info.ChatJID r.1 env.now)) := by
  constructor
  · intro fs req targetPath tmpName tmpCreateOk net e hfresh herr
    unfold DownloadMediaToFile at herr ⊢
    by_cases h1 : trimSpace req.DirectPath = ""
    · rw [if_pos h1]
    · rw [if_neg h1] at herr ⊢
      rcases hmt : mediaTypeFromString req.MediaType with e2 | mt
      · simp only [hmt]
      · simp only [hmt] at herr ⊢
        by_cases h2 : tmpCreateOk = true
        · rw [if_neg (fun hcon => hcon h2)] at herr ⊢
          cases net with
          | ok bytes => exact Except.noConfusion herr
          | fail written msg =>
              simp only []
              rw [FS.remove_set_set, FS.lookup_removeFile]
              by_cases ht : targetPath = tmpName
              · rw [if_pos ht, ht, hfresh]
              · rw [if_neg ht]
        · rw [if_pos h2]
  · intro env db info requestedPath
    constructor
    · intro e herr
      unfold downloadMediaAndPersist at herr ⊢
      by_cases h1 : env.mkdirOk (env.resolvePath info requestedPath) = true
      · rw [if_neg (fun hcon => hcon h1)] at herr ⊢
        rcases hdl : env.download info (env.resolvePath info requestedPath) with e2 | bytes
        · rfl
        · rw [hdl] at herr
          exact Except.noConfusion herr
      · rw [if_pos h1]
    · intro r hok
      unfold downloadMediaAndPersist at hok ⊢
      by_cases h1 : env.mkdirOk (env.resolvePath info requestedPath) = true
      · rw [if_neg (fun hcon => hcon h1)] at hok ⊢
        rcases hdl : env.download info (env.resolvePath info requestedPath) with e2 | bytes
        · rw [hdl] at hok
          exact Except.noConfusion hok
        · rw [hdl] at hok
          have hr : r = (env.resolvePath info requestedPath, bytes, env.now) :=
            (Except.ok.inj hok).symm
          rw [hr]
      · rw [if_pos h1] at hok
        exact Except.noConfusion hok

theorem c7_atomic_download_no_store_mutation_witness :
    c7fs.lookup "tmp1" = none ∧
    (DownloadMediaToFile c7fs c7req "target.jpg" "tmp1" true (.fail [5] "network down")).snd
      = .error "network down" ∧
    (DownloadMediaToFile c7fs c7req "target.jpg" "tmp1" true
        (.fail [5] "network down")).fst.lookup "target.jpg" = c7fs.lookup "target.jpg" ∧
    (downloadMediaAndPersist c7envFail c7db c7info "").snd = .error "network down" ∧
    (downloadMediaAndPersist c7envFail c7db c7info "").fst = c7db := by
  refine ⟨by decide, by decide, ?_, by decide, ?_⟩
  · exact c7_atomic_download_no_store_mutation.1 c7fs c7req "target.jpg" "tmp1" true
      (.fail [5] "network down") "network down" (by decide) (by decide)
  · exact (c7_atomic_download_no_store_mutation.2 c7envFail c7db c7info "").1
      "network down" (by decide)
